import Mathlib

/-!
Shallow embedding of the startup-evaluation script (src/main.py) and
verification of its specification claims.

Python strings are modelled as lists of characters; Python str.split,
str.strip and substring containment are modelled by structurally
recursive functions below, so that every definition evaluates inside
the kernel.  Randomness (random.randint) is modelled by an oracle of
natural-number draws, one per category: randint(1, 5) becomes
1 + draw % 5, which ranges over exactly the integers 1..5.
Exceptions from the OpenAI call are modelled by an Except value.
-/

namespace StartupEvaluation

/-- The ten fixed evaluation categories, in the order of the dict
initialised in StartupEvaluator.__init__ (src/main.py lines 40-51). -/
inductive Category where
  | marketOpportunity
  | problemSolutionFit
  | competitiveAdvantage
  | teamStrength
  | exitPotential
  | revenueGrowth
  | burnRateRunway
  | fundingHistory
  | customerAdoption
  | valuationCapTable
deriving DecidableEq, Repr

/-- The exact dictionary key string of each category (src/main.py lines 41-50). -/
def keyName : Category → String
  | .marketOpportunity => "Market Opportunity"
  | .problemSolutionFit => "Problem & Solution Fit"
  | .competitiveAdvantage => "Competitive Advantage"
  | .teamStrength => "Team Strength"
  | .exitPotential => "Exit Potential"
  | .revenueGrowth => "Revenue Growth"
  | .burnRateRunway => "Burn Rate & Runway"
  | .fundingHistory => "Funding History"
  | .customerAdoption => "Customer Adoption"
  | .valuationCapTable => "Valuation & Cap Table"

/-- All ten categories in dict order (iteration order of self.data). -/
def allCategories : List Category :=
  [.marketOpportunity, .problemSolutionFit, .competitiveAdvantage, .teamStrength,
   .exitPotential, .revenueGrowth, .burnRateRunway, .fundingHistory,
   .customerAdoption, .valuationCapTable]

/-- The freshly initialised record: every category maps to None
(src/main.py lines 40-51). -/
def emptyRecord : Category → Option (List Char) := fun _ => none

/-- Whether the first list is a prefix of the second (Boolean, structural). -/
def isPrefixOfL : List Char → List Char → Bool
  | [], _ => true
  | _ :: _, [] => false
  | a :: as, b :: bs => a = b && isPrefixOfL as bs

/-- Fuel-driven worker for Python str.split with a non-empty separator:
scans left to right, consuming each non-overlapping occurrence of the
separator and emitting the chunk accumulated so far (held reversed). -/
def splitOnFuel (sep : List Char) : Nat → List Char → List Char → List (List Char)
  | _, [], acc => [acc.reverse]
  | 0, s, acc => [acc.reverse ++ s]
  | fuel + 1, c :: rest, acc =>
      if isPrefixOfL sep (c :: rest) then
        acc.reverse :: splitOnFuel sep fuel ((c :: rest).drop sep.length) []
      else
        splitOnFuel sep fuel rest (c :: acc)

/-- Python s.split(sep) for a non-empty separator sep. -/
def pySplit (s sep : List Char) : List (List Char) :=
  splitOnFuel sep (s.length + 1) s []

/-- Python whitespace predicate used by str.strip(). -/
def isPyWhitespace (c : Char) : Bool :=
  c = ' ' || c = '\t' || c = '\n' || c = '\r' || c = '\x0b' || c = '\x0c'

/-- Python s.strip(): remove leading and trailing whitespace. -/
def pyStrip (s : List Char) : List Char :=
  ((s.dropWhile isPyWhitespace).reverse.dropWhile isPyWhitespace).reverse

/-- The literal marker searched for in the model response:
the f-string "{key}:" of src/main.py line 121. -/
def markerOf (k : Category) : List Char :=
  (keyName k).data ++ [':']

/-- The per-key parse of src/main.py lines 121-122: if the marker occurs
in the response (so the split has at least two parts), the stored value is
response.split(marker)[1].split(newline)[0].strip(); otherwise nothing. -/
def parseValue (marker resp : List Char) : Option (List Char) :=
  match pySplit resp marker with
  | _ :: after :: _ => some (pyStrip ((pySplit after ['\n']).headD []))
  | _ => none

/-- One iteration of the parsing loop body (src/main.py lines 120-122):
conditionally assign self.data[key]. -/
def updateKey (resp : List Char) (data : Category → Option (List Char))
    (k : Category) : Category → Option (List Char) :=
  match parseValue (markerOf k) resp with
  | some v => fun q => if q = k then some v else data q
  | none => data

/-- The full parsing loop of src/main.py lines 120-122: for each key of
self.data in dict order, conditionally assign the parsed value. -/
def parseResponse (resp : List Char) (data : Category → Option (List Char)) :
    Category → Option (List Char) :=
  allCategories.foldl (updateKey resp) data

/-- StartupEvaluator.ask_openai (src/main.py lines 71-82): returns the
completion text on success; any raised exception is caught and turned into
None, never propagated. -/
def ask_openai (callResult : Except String (List Char)) : Option (List Char) :=
  match callResult with
  | Except.ok s => some s
  | Except.error _ => none

/-- StartupEvaluator.analyze_startup (src/main.py lines 84-125): call the
model once; if the response is truthy (not None and non-empty) run the
parsing loop, otherwise leave the record unchanged. -/
def analyze_startup (callResult : Except String (List Char))
    (data : Category → Option (List Char)) : Category → Option (List Char) :=
  match ask_openai callResult with
  | some resp => if resp = [] then data else parseResponse resp data
  | none => data

/-- The per-category score of StartupEvaluator.evaluate
(src/main.py lines 130-134): a truthy (non-empty) value scores
min(10, max(1, len(value) % 10)); a falsy value (None or empty) scores
random.randint(1, 5), modelled as 1 + draw % 5. -/
def scoreOf (value : Option (List Char)) (draw : Nat) : Nat :=
  match value with
  | some v => if v = [] then 1 + draw % 5 else min 10 (max 1 (v.length % 10))
  | none => 1 + draw % 5

/-- The mean computed on src/main.py line 136:
sum(scores.values()) / len(scores), over the ten categories. -/
def meanScore (s : Category → ℚ) : ℚ :=
  ((allCategories.map s).sum) / ((allCategories.length : ℚ))

/-- StartupEvaluator.evaluate (src/main.py lines 127-137): the score map
and the overall score (their mean, as an exact rational). -/
def evaluate (data : Category → Option (List Char)) (rng : Category → Nat) :
    ℚ × (Category → Nat) :=
  let scores : Category → Nat := fun k => scoreOf (data k) (rng k)
  (meanScore (fun k => ((scores k : Nat) : ℚ)), scores)

/-- The three recommendation tiers printed by generate_report. -/
inductive Recommendation where
  | strongCandidate
  | promising
  | highRisk
deriving DecidableEq, Repr

/-- The threshold chain of src/main.py lines 149-154:
score >= 8 strong, elif score >= 5 promising, else high risk. -/
def recommendation (score : ℚ) : Recommendation :=
  if 8 ≤ score then .strongCandidate
  else if 5 ≤ score then .promising
  else .highRisk

/-- The report assembled by StartupEvaluator.generate_report
(src/main.py lines 139-154), as data rather than console text. -/
structure Report where
  company : List Char
  investmentScore : ℚ
  detailedScores : Category → Nat
  recommendation : Recommendation

/-- StartupEvaluator.generate_report (src/main.py lines 139-154). -/
def generate_report (company : List Char) (score : ℚ)
    (detailed : Category → Nat) : Report :=
  { company := company, investmentScore := score,
    detailedScores := detailed, recommendation := recommendation score }

/-- StartupEvaluator.run (src/main.py lines 156-173): fetch (result only
printed, never consumed), analyze, evaluate, report, in strict sequence,
starting from the freshly initialised record. -/
def run (company : List Char) (fetched : Option (List (List Char)))
    (callResult : Except String (List Char)) (rng : Category → Nat) : Report :=
  let data := analyze_startup callResult emptyRecord
  let result := evaluate data rng
  generate_report company result.1 result.2

/-- Scoring formula stated by the spec for present values:
max(1, min(10, length(value) mod 10)), a modulo result of 0 raised to 1. -/
def specLengthScore (v : List Char) : Nat :=
  max 1 (min 10 (v.length % 10))

/-- Everything of a string up to (but not including) the first line break. -/
def takeToNewline (s : List Char) : List Char :=
  s.takeWhile (fun c => c ≠ '\n')

/-- Whether sub occurs as a contiguous substring of the string. -/
def containsSub (sub : List Char) : List Char → Bool
  | [] => isPrefixOfL sub []
  | c :: rest => isPrefixOfL sub (c :: rest) || containsSub sub rest

/-- Everything of the string after the first occurrence of sub
(empty when sub does not occur). -/
def afterFirst (sub : List Char) : List Char → List Char
  | [] => []
  | c :: rest =>
      if isPrefixOfL sub (c :: rest) then (c :: rest).drop sub.length
      else afterFirst sub rest

/-- The parsing contract exactly as the spec words it: if the marker
occurs in the response, the value is everything after that marker up to
(but not including) the next line break, trimmed of surrounding
whitespace; otherwise absent. -/
def specParseValue (marker resp : List Char) : Option (List Char) :=
  if containsSub marker resp then
    some (pyStrip (takeToNewline (afterFirst marker resp)))
  else none

/-- The amended parsing contract: if the marker occurs in the response,
the value is the text strictly between the first occurrence of the marker
and its next occurrence (or the end of the response), truncated at its
first line break, trimmed of surrounding whitespace; otherwise absent. -/
def specParseValueAmended (marker resp : List Char) : Option (List Char) :=
  match pySplit resp marker with
  | _ :: between :: _ => some (pyStrip (takeToNewline between))
  | _ => none

/-- A record whose only present value is a sample answer for the first
category; every other category is absent. -/
def sampleRecord : Category → Option (List Char) :=
  fun k => if k = Category.marketOpportunity then
    some "Large and growing market".data else none

/-- The record produced by parsing a response whose first marker is
followed immediately by a line break: the first category is present with
an empty value. -/
def emptyValueRecord : Category → Option (List Char) :=
  parseResponse "Market Opportunity:\nmore".data emptyRecord

lemma evaluate_snd (data : Category → Option (List Char)) (rng : Category → Nat) :
    (evaluate data rng).2 = fun k => scoreOf (data k) (rng k) := rfl

lemma evaluate_fst (data : Category → Option (List Char)) (rng : Category → Nat) :
    (evaluate data rng).1 =
      meanScore (fun k => ((scoreOf (data k) (rng k) : Nat) : ℚ)) := rfl

lemma updateKey_ne (resp : List Char) (data : Category → Option (List Char))
    (k q : Category) (h : q ≠ k) : updateKey resp data k q = data q := by
  unfold updateKey
  cases parseValue (markerOf k) resp with
  | none => rfl
  | some v => simp [h]

lemma updateKey_self (resp : List Char) (data : Category → Option (List Char))
    (k : Category) :
    updateKey resp data k k =
      match parseValue (markerOf k) resp with
      | some v => some v
      | none => data k := by
  unfold updateKey
  cases parseValue (markerOf k) resp with
  | none => rfl
  | some v => simp

lemma foldl_updateKey_not_mem (resp : List Char) (l : List Category)
    (data : Category → Option (List Char)) (k : Category) (hk : k ∉ l) :
    l.foldl (updateKey resp) data k = data k := by
  induction l generalizing data with
  | nil => rfl
  | cons c t ih =>
      simp only [List.foldl_cons]
      rw [ih _ (fun h => hk (List.mem_cons_of_mem c h))]
      exact updateKey_ne resp data c k (fun h => hk (h ▸ List.mem_cons_self c t))

lemma foldl_updateKey_mem (resp : List Char) (l : List Category)
    (data : Category → Option (List Char)) (k : Category)
    (hk : k ∈ l) (hnd : l.Nodup) :
    l.foldl (updateKey resp) data k =
      match parseValue (markerOf k) resp with
      | some v => some v
      | none => data k := by
  induction l generalizing data with
  | nil => cases hk
  | cons c t ih =>
      simp only [List.foldl_cons]
      rcases List.mem_cons.mp hk with h | h
      · subst h
        rw [foldl_updateKey_not_mem resp t _ k (List.nodup_cons.mp hnd).1,
          updateKey_self]
      · have hne : k ≠ c := by
          rintro rfl
          exact (List.nodup_cons.mp hnd).1 h
        rw [ih _ h (List.nodup_cons.mp hnd).2]
        cases hpv : parseValue (markerOf k) resp with
        | none => simp only [hpv]; exact updateKey_ne resp data c k hne
        | some v => simp only [hpv]

/-- Pointwise characterisation of the parsing loop: each key takes the
value parsed for its own marker, and keeps its old value when the marker
does not occur; the other nine updates never interfere. -/
lemma parseResponse_apply (resp : List Char)
    (data : Category → Option (List Char)) (k : Category) :
    parseResponse resp data k =
      match parseValue (markerOf k) resp with
      | some v => some v
      | none => data k := by
  have hk : k ∈ allCategories := by cases k <;> decide
  have hnd : allCategories.Nodup := by decide
  exact foldl_updateKey_mem resp allCategories data k hk hnd

lemma splitOnFuel_newline_headD (fuel : Nat) (s acc : List Char)
    (h : s.length < fuel) :
    (splitOnFuel ['\n'] fuel s acc).headD [] =
      acc.reverse ++ s.takeWhile (fun c => c ≠ '\n') := by
  induction fuel generalizing s acc with
  | zero => omega
  | succ n ih =>
      cases s with
      | nil => simp [splitOnFuel]
      | cons c rest =>
          by_cases hc : c = '\n'
          · subst hc
            simp [splitOnFuel, isPrefixOfL, List.takeWhile]
          · have h1 : isPrefixOfL ['\n'] (c :: rest) = false := by
              simp [isPrefixOfL]
              exact fun hh => hc hh.symm
            have h2 : rest.length < n := by
              simpa using Nat.lt_of_succ_lt_succ h
            simp only [splitOnFuel, h1, Bool.false_eq_true, if_false]
            rw [ih rest (c :: acc) h2]
            simp [List.takeWhile, hc]

/-- The code truncation at the first line break,
response.split(newline)[0], equals the spec truncation takeToNewline. -/
lemma pySplit_newline_headD (s : List Char) :
    (pySplit s ['\n']).headD [] = takeToNewline s := by
  have := splitOnFuel_newline_headD (s.length + 1) s []
    (Nat.lt_succ_self s.length)
  simpa [pySplit, takeToNewline] using this

/-- The per-key parse of the code equals the amended parsing contract. -/
lemma parseValue_eq_amended (marker resp : List Char) :
    parseValue marker resp = specParseValueAmended marker resp := by
  unfold parseValue specParseValueAmended
  cases pySplit resp marker with
  | nil => rfl
  | cons a t =>
      cases t with
      | nil => rfl
      | cons between t2 =>
          show some (pyStrip ((pySplit between ['\n']).headD [])) =
            some (pyStrip (takeToNewline between))
          rw [pySplit_newline_headD]

lemma meanScore_eq (s : Category → ℚ) :
    meanScore s =
      (s .marketOpportunity + s .problemSolutionFit + s .competitiveAdvantage +
       s .teamStrength + s .exitPotential + s .revenueGrowth +
       s .burnRateRunway + s .fundingHistory + s .customerAdoption +
       s .valuationCapTable) / 10 := by
  simp [meanScore, allCategories]
  ring

lemma scoreOf_bounds (value : Option (List Char)) (draw : Nat) :
    1 ≤ scoreOf value draw ∧ scoreOf value draw ≤ 9 := by
  cases value with
  | none =>
      simp only [scoreOf]
      have := Nat.mod_lt draw (show 0 < 5 by norm_num)
      omega
  | some v =>
      simp only [scoreOf]
      by_cases he : v = []
      · rw [if_pos he]
        have := Nat.mod_lt draw (show 0 < 5 by norm_num)
        omega
      · rw [if_neg he]
        have := Nat.mod_lt v.length (show 0 < 10 by norm_num)
        omega

/-- C1 (counterexample): the length-formula claim fails at length 0.
Parsing a response whose marker is immediately followed by a line break
leaves the first category present with an empty value; evaluate treats
the empty value as falsy and assigns the random fallback (here draw 2
gives score 3), while the spec formula at length 0 gives 1. -/
theorem c1_formula_fails_at_length_zero :
    emptyValueRecord Category.marketOpportunity = some [] ∧
    (evaluate emptyValueRecord (fun _ => 2)).2 Category.marketOpportunity = 3 ∧
    specLengthScore [] = 1 ∧
    (evaluate emptyValueRecord (fun _ => 2)).2 Category.marketOpportunity ≠
      specLengthScore [] := by
  refine ⟨by decide, by decide, by decide, by decide⟩

/-- C1 (amended): for every category whose parsed value is present and
non-empty, the score assigned by evaluate equals
max(1, min(10, length(value) mod 10)); values of length 0 are instead
treated as missing and scored by the random fallback. The formula holds
exactly at lengths 1, 9, 10, 11 and 20, which are all non-empty. -/
theorem present_nonempty_score_is_spec_formula
    (data : Category → Option (List Char)) (rng : Category → Nat)
    (k : Category) (v : List Char) (hv : data k = some v) (hne : v ≠ []) :
    (evaluate data rng).2 k = specLengthScore v := by
  rw [evaluate_snd]
  show scoreOf (data k) (rng k) = specLengthScore v
  rw [hv]
  simp only [scoreOf, specLengthScore]
  rw [if_neg hne]
  have := Nat.mod_lt v.length (show 0 < 10 by norm_num)
  omega

/-- C1 witness: the formula theorem applied to a concrete record holding
a sample value of length 24 (24 mod 10 = 4). -/
theorem present_nonempty_score_is_spec_formula_witness :
    sampleRecord Category.marketOpportunity =
      some "Large and growing market".data ∧
    (evaluate sampleRecord (fun _ => 0)).2 Category.marketOpportunity =
      specLengthScore "Large and growing market".data := by
  refine ⟨by decide, present_nonempty_score_is_spec_formula sampleRecord
    (fun _ => 0) Category.marketOpportunity "Large and growing market".data
    (by decide) (by decide)⟩

/-- C2 (counterexample): when the marker occurs twice before the next
line break, the code truncates the value at the second occurrence of the
marker, not at the line break as the claim states. -/
theorem c2_parse_fails_on_repeated_marker :
    parseResponse "Team Strength:aaTeam Strength:bb\nend".data emptyRecord
      Category.teamStrength = some "aa".data ∧
    specParseValue (markerOf Category.teamStrength)
      "Team Strength:aaTeam Strength:bb\nend".data =
      some "aaTeam Strength:bb".data ∧
    parseResponse "Team Strength:aaTeam Strength:bb\nend".data emptyRecord
      Category.teamStrength ≠
      specParseValue (markerOf Category.teamStrength)
        "Team Strength:aaTeam Strength:bb\nend".data := by
  refine ⟨by decide, by decide, by decide⟩

/-- C2 (amended): after parsing, each key whose marker occurs in the
response maps to the text strictly between the first occurrence of the
marker and its next occurrence (or the end of the response), truncated at
its first line break, trimmed of surrounding whitespace; every key whose
marker does not occur keeps its previous (absent) value. -/
theorem parse_matches_amended_contract (resp : List Char)
    (data : Category → Option (List Char)) (k : Category) :
    parseResponse resp data k =
      match specParseValueAmended (markerOf k) resp with
      | some v => some v
      | none => data k := by
  rw [parseResponse_apply, parseValue_eq_amended]

/-- C3: the recommendation tiers are exhaustive and non-overlapping over
all scores: at least 8 is strong, at least 5 but below 8 is promising,
below 5 is high risk; in particular 7.999 is promising, 8 is strong,
4.999 is high risk and 5 is promising. -/
theorem recommendation_tiers :
    (∀ s : ℚ,
      (8 ≤ s → recommendation s = Recommendation.strongCandidate) ∧
      (5 ≤ s ∧ s < 8 → recommendation s = Recommendation.promising) ∧
      (s < 5 → recommendation s = Recommendation.highRisk)) ∧
    recommendation (7999 / 1000) = Recommendation.promising ∧
    recommendation 8 = Recommendation.strongCandidate ∧
    recommendation (4999 / 1000) = Recommendation.highRisk ∧
    recommendation 5 = Recommendation.promising := by
  refine ⟨fun s => ⟨fun h => ?_, fun h => ?_, fun h => ?_⟩, ?_, ?_, ?_, ?_⟩
  · rw [recommendation, if_pos h]
  · rw [recommendation, if_neg (not_le.mpr h.2), if_pos h.1]
  · rw [recommendation, if_neg (not_le.mpr (by linarith)),
      if_neg (not_le.mpr h)]
  · rw [recommendation, if_neg (by norm_num), if_pos (by norm_num)]
  · rw [recommendation, if_pos (by norm_num)]
  · rw [recommendation, if_neg (by norm_num), if_neg (by norm_num)]
  · rw [recommendation, if_neg (by norm_num), if_pos (by norm_num)]

/-- C3 witness: the tier theorem applied at the concrete score 9. -/
theorem recommendation_tiers_witness :
    (8 : ℚ) ≤ 9 ∧ recommendation 9 = Recommendation.strongCandidate :=
  ⟨by norm_num, (recommendation_tiers.1 9).1 (by norm_num)⟩

/-- C4: the overall score returned by evaluate is the unweighted
arithmetic mean of exactly ten per-category scores, as an exact rational
with no rounding. -/
theorem overall_is_mean_of_ten (data : Category → Option (List Char))
    (rng : Category → Nat) :
    allCategories.length = 10 ∧
    (evaluate data rng).1 =
      (((evaluate data rng).2 Category.marketOpportunity : ℚ) +
       ((evaluate data rng).2 Category.problemSolutionFit : ℚ) +
       ((evaluate data rng).2 Category.competitiveAdvantage : ℚ) +
       ((evaluate data rng).2 Category.teamStrength : ℚ) +
       ((evaluate data rng).2 Category.exitPotential : ℚ) +
       ((evaluate data rng).2 Category.revenueGrowth : ℚ) +
       ((evaluate data rng).2 Category.burnRateRunway : ℚ) +
       ((evaluate data rng).2 Category.fundingHistory : ℚ) +
       ((evaluate data rng).2 Category.customerAdoption : ℚ) +
       ((evaluate data rng).2 Category.valuationCapTable : ℚ)) / 10 := by
  refine ⟨rfl, ?_⟩
  rw [evaluate_fst, evaluate_snd, meanScore_eq]

/-- C5: a category that is absent at evaluation time receives the random
fallback score, which always lies in the inclusive range 1..5 and hence
in 1..10. -/
theorem absent_value_score_in_range (data : Category → Option (List Char))
    (rng : Category → Nat) (k : Category) (h : data k = none) :
    1 ≤ (evaluate data rng).2 k ∧ (evaluate data rng).2 k ≤ 5 ∧
      (evaluate data rng).2 k ≤ 10 := by
  rw [evaluate_snd]
  show 1 ≤ scoreOf (data k) (rng k) ∧ scoreOf (data k) (rng k) ≤ 5 ∧
    scoreOf (data k) (rng k) ≤ 10
  rw [h]
  simp only [scoreOf]
  have := Nat.mod_lt (rng k) (show 0 < 5 by norm_num)
  omega

/-- C5 witness: the range theorem applied to the fresh all-absent record
at a concrete category and draw. -/
theorem absent_value_score_in_range_witness :
    emptyRecord Category.teamStrength = none ∧
    (1 ≤ (evaluate emptyRecord (fun _ => 4)).2 Category.teamStrength ∧
     (evaluate emptyRecord (fun _ => 4)).2 Category.teamStrength ≤ 5 ∧
     (evaluate emptyRecord (fun _ => 4)).2 Category.teamStrength ≤ 10) :=
  ⟨rfl, absent_value_score_in_range emptyRecord (fun _ => 4)
    Category.teamStrength rfl⟩

/-- C6: any exception raised by the model call is converted by ask_openai
to an absent result and never propagated; the run still produces a full
report in which every category is absent and every score comes from the
fallback range 1..5. -/
theorem model_call_exception_degrades_gracefully (e : String)
    (company : List Char) (fetched : Option (List (List Char)))
    (rng : Category → Nat) :
    ask_openai (Except.error e) = none ∧
    (∀ k, analyze_startup (Except.error e) emptyRecord k = none) ∧
    (∀ k, 1 ≤ (run company fetched (Except.error e) rng).detailedScores k ∧
      (run company fetched (Except.error e) rng).detailedScores k ≤ 5) ∧
    (run company fetched (Except.error e) rng).recommendation =
      recommendation
        ((run company fetched (Except.error e) rng).investmentScore) := by
  refine ⟨rfl, fun k => rfl, fun k => ?_, rfl⟩
  show 1 ≤ scoreOf none (rng k) ∧ scoreOf none (rng k) ≤ 5
  simp only [scoreOf]
  have := Nat.mod_lt (rng k) (show 0 < 5 by norm_num)
  omega

/-- C7: parsing is idempotent: applying the parsing loop twice to the
same record with the same response yields the same record as applying it
once. -/
theorem parse_idempotent (resp : List Char)
    (data : Category → Option (List Char)) :
    parseResponse resp (parseResponse resp data) = parseResponse resp data := by
  funext k
  rw [parseResponse_apply, parseResponse_apply]
  cases hpv : parseValue (markerOf k) resp with
  | none => simp only [hpv]
  | some v => simp only [hpv]

/-- C8: replacing any single score s by s plus delta changes the mean
computed by evaluate over the ten categories by exactly delta divided
by ten. -/
theorem mean_shift_by_delta (sc : Category → ℚ) (δ : ℚ) (k : Category) :
    meanScore (fun q => if q = k then sc k + δ else sc q) =
      meanScore sc + δ / 10 := by
  cases k <;> · rw [meanScore_eq, meanScore_eq]; simp; ring

/-- C9: the report produced by run does not depend on the outcome of the
search fetch: any two fetch outcomes with the same model-call result and
the same random draws give identical reports. -/
theorem scores_independent_of_fetch (company : List Char)
    (f1 f2 : Option (List (List Char)))
    (callResult : Except String (List Char)) (rng : Category → Nat) :
    run company f1 callResult rng = run company f2 callResult rng := rfl

/-- C10: every score emitted by evaluate lies in the inclusive range
1..9 (the clamp to 10 is unreachable since a length modulo 10 is at most
9, and the random fallback is at most 5), and consequently the overall
score never exceeds 9. -/
theorem scores_bounded_overall_at_most_nine
    (data : Category → Option (List Char)) (rng : Category → Nat) :
    (∀ k, 1 ≤ (evaluate data rng).2 k ∧ (evaluate data rng).2 k ≤ 9) ∧
    (evaluate data rng).1 ≤ 9 := by
  have hb : ∀ k, 1 ≤ scoreOf (data k) (rng k) ∧
      scoreOf (data k) (rng k) ≤ 9 :=
    fun k => scoreOf_bounds (data k) (rng k)
  constructor
  · intro k
    rw [evaluate_snd]
    exact hb k
  · rw [evaluate_fst, meanScore_eq]
    have h9 : ∀ k, ((scoreOf (data k) (rng k) : Nat) : ℚ) ≤ 9 := by
      intro k
      exact_mod_cast (hb k).2
    rw [div_le_iff₀ (by norm_num : (0 : ℚ) < 10)]
    linarith [h9 Category.marketOpportunity, h9 Category.problemSolutionFit,
      h9 Category.competitiveAdvantage, h9 Category.teamStrength,
      h9 Category.exitPotential, h9 Category.revenueGrowth,
      h9 Category.burnRateRunway, h9 Category.fundingHistory,
      h9 Category.customerAdoption, h9 Category.valuationCapTable]

end StartupEvaluation
